import Mathlib

/-!
Shallow embedding of the error-canceling reaction core of the repository
(arkane/isodesmic.py and the preferred-source selection of arkane/reference.py),
together with theorems settling the specification claims.

Modelling conventions:
* Python dicts are insertion-ordered association lists.
* ScalarQuantity values are represented by their value_si as a rational number
  (all enthalpies and uncertainties below are in SI units, J/mol).
* Python exceptions are the explicit error type PyErr; a function that can raise
  returns Except PyErr.
* numpy vectors/matrices of integer counts are List Int / List (List Int).
-/

namespace Isodesmic

/-- Python exceptions that the modelled code can raise. -/
inductive PyErr where
  | valueError (msg : String)
  | attributeError (msg : String)
  | indexError
deriving DecidableEq, Repr

/-- The slice of the external rmgpy Molecule interface used by isodesmic.py:
get_element_count() (insertion-ordered dict of element symbol to count),
enumerate_bonds() (insertion-ordered dict of bond descriptor to count) and
get_smallest_set_of_smallest_rings() (of each ring only its size matters,
since only the length of each ring is ever read). -/
structure Molecule where
  elementCount : List (String × Nat)
  bonds : List (String × Nat)
  rings : List Nat
deriving DecidableEq, Repr

/-- ErrorCancelingSpecies record (isodesmic.py lines 51-84): enthalpies are
stored as their value_si. -/
structure ErrorCancelingSpecies where
  molecule : Molecule
  low_level_hf298 : ℚ
  model_chemistry : String
  high_level_hf298 : Option ℚ
  source : Option String
deriving DecidableEq, Repr

/-- Dynamically-typed argument values that can reach the ErrorCancelingSpecies
constructor for its molecule and model_chemistry parameters. -/
inductive PyObj where
  | mol (m : Molecule)
  | str (s : String)
  | int (n : Int)
  | pyNone
deriving DecidableEq, Repr

/-- ErrorCancelingSpecies.__init__ (isodesmic.py lines 54-81): checks
isinstance(molecule, Molecule) first, then isinstance(model_chemistry, str);
each failure raises ValueError.  No further validation is performed on the
model chemistry string itself. -/
def ErrorCancelingSpecies.init (molecule : PyObj) (low_level_hf298 : ℚ)
    (model_chemistry : PyObj) (high_level_hf298 : Option ℚ)
    (source : Option String) : Except PyErr ErrorCancelingSpecies :=
  match molecule with
  | PyObj.mol m =>
    match model_chemistry with
    | PyObj.str s =>
      Except.ok ⟨m, low_level_hf298, s, high_level_hf298, source⟩
    | _ => Except.error (PyErr.valueError
        "The model chemistry string used to calculate the low level Hf298 must be provided consistency checks. Instead, a different object was given")
  | _ => Except.error (PyErr.valueError
      "ErrorCancelingSpecies molecule attribute must be an rmgpy Molecule object. Instead a different object was given")

/-- ErrorCancelingReaction record (isodesmic.py lines 87-126): the companion
dict is an insertion-ordered association list of species and signed
stoichiometric coefficient. -/
structure ErrorCancelingReaction where
  target : ErrorCancelingSpecies
  model_chemistry : String
  species : List (ErrorCancelingSpecies × ℚ)
deriving DecidableEq, Repr

/-- ErrorCancelingReaction.__init__ (isodesmic.py lines 90-115): stores the
target and its model chemistry, then raises ValueError at the first companion
whose model chemistry differs from the target's. -/
def ErrorCancelingReaction.init (target : ErrorCancelingSpecies)
    (species : List (ErrorCancelingSpecies × ℚ)) :
    Except PyErr ErrorCancelingReaction :=
  match species.find? (fun p => p.1.model_chemistry != target.model_chemistry) with
  | some p => Except.error (PyErr.valueError
      ("Species has model chemistry " ++ p.1.model_chemistry ++
        " which does not match the model chemistry of the reaction of " ++
        target.model_chemistry))
  | none => Except.ok ⟨target, target.model_chemistry, species⟩

/-- The message of the AttributeError Python raises at isodesmic.py line 139
when a companion's high_level_hf298 is None and .value_si is accessed. -/
def attrMsg : String := "NoneType object has no attribute value_si"

/-- The high-level companion sum of isodesmic.py line 139: accumulates
coefficient-weighted high-level enthalpies in dict order, raising
AttributeError at the first companion whose high_level_hf298 is None. -/
def high_sum : List (ErrorCancelingSpecies × ℚ) → ℚ → Except PyErr ℚ
  | [], acc => Except.ok acc
  | p :: t, acc =>
    match p.1.high_level_hf298 with
    | some h => high_sum t (acc + h * p.2)
    | none => Except.error (PyErr.attributeError attrMsg)

/-- ErrorCancelingReaction.calculate_target_thermo (isodesmic.py lines
128-141): low_level_h_rxn is the coefficient-weighted low-level sum minus the
target's low-level enthalpy; the result is the high-level companion sum minus
low_level_h_rxn, in J/mol. -/
def calculate_target_thermo (rxn : ErrorCancelingReaction) : Except PyErr ℚ :=
  let low_level_h_rxn :=
    (rxn.species.map (fun p => p.1.low_level_hf298 * p.2)).sum -
      rxn.target.low_level_hf298
  (high_sum rxn.species 0).map (fun s => s - low_level_h_rxn)

lemma high_sum_ok (l : List (ErrorCancelingSpecies × ℚ)) (acc : ℚ)
    (h : ∀ p ∈ l, p.1.high_level_hf298.isSome) :
    high_sum l acc =
      Except.ok (acc + (l.map (fun p => p.1.high_level_hf298.getD 0 * p.2)).sum) := by
  induction l generalizing acc with
  | nil => simp [high_sum]
  | cons p t ih =>
    have hp : p.1.high_level_hf298.isSome := h p (List.mem_cons_self p t)
    rcases Option.isSome_iff_exists.mp hp with ⟨v, hv⟩
    have ht : ∀ q ∈ t, q.1.high_level_hf298.isSome :=
      fun q hq => h q (List.mem_cons_of_mem p hq)
    simp only [high_sum, hv, ih _ ht, List.map_cons, List.sum_cons, hv,
      Option.getD_some]
    rw [add_assoc]

lemma high_sum_err (l : List (ErrorCancelingSpecies × ℚ)) (acc : ℚ)
    (h : ∃ p ∈ l, p.1.high_level_hf298 = none) :
    high_sum l acc = Except.error (PyErr.attributeError attrMsg) := by
  induction l generalizing acc with
  | nil => simp at h
  | cons p t ih =>
    rcases h with ⟨q, hq, hqn⟩
    rcases List.mem_cons.mp hq with rfl | hqt
    · simp [high_sum, hqn]
    · cases hv : p.1.high_level_hf298 with
      | none => simp [high_sum, hv]
      | some v => simp [high_sum, hv, ih _ ⟨q, hqt, hqn⟩]

/-- C1: when every companion carries a high-level enthalpy,
calculate_target_thermo returns the coefficient-weighted high-level sum minus
(the coefficient-weighted low-level sum minus the target's low-level
enthalpy). -/
theorem c1_calculate_target_thermo_formula (rxn : ErrorCancelingReaction)
    (h : ∀ p ∈ rxn.species, p.1.high_level_hf298.isSome) :
    calculate_target_thermo rxn =
      Except.ok ((rxn.species.map (fun p => p.1.high_level_hf298.getD 0 * p.2)).sum -
        ((rxn.species.map (fun p => p.1.low_level_hf298 * p.2)).sum -
          rxn.target.low_level_hf298)) := by
  simp [calculate_target_thermo, high_sum_ok rxn.species 0 h, Except.map]

/-- Fixed molecule used by several concrete examples below: a single carbon
atom with no bonds and no rings. -/
def molC : Molecule := ⟨[("C", 1)], [], []⟩

/-- The concrete C1 scenario: target low=50 with companions A (low=30,
high=40, coeff=+1) and B (low=10, high=5, coeff=-1). -/
def rxnC1 : ErrorCancelingReaction :=
  ⟨⟨molC, 50, "levelX", none, none⟩, "levelX",
    [(⟨molC, 30, "levelX", some 40, none⟩, 1),
     (⟨molC, 10, "levelX", some 5, none⟩, -1)]⟩

/-- Witness for C1: on the concrete scenario every companion has high-level
data and the estimate is 65 J/mol. -/
theorem c1_calculate_target_thermo_formula_witness :
    (∀ p ∈ rxnC1.species, p.1.high_level_hf298.isSome) ∧
      calculate_target_thermo rxnC1 = Except.ok 65 := by
  refine ⟨by decide, ?_⟩
  rw [c1_calculate_target_thermo_formula rxnC1 (by decide)]
  norm_num [rxnC1, molC]

/-- C2: when some companion lacks a high-level enthalpy,
calculate_target_thermo raises the missing-reference-data error (the
AttributeError from accessing value_si on None) and yields no partial
result. -/
theorem c2_missing_high_level_raises (rxn : ErrorCancelingReaction)
    (h : ∃ p ∈ rxn.species, p.1.high_level_hf298 = none) :
    calculate_target_thermo rxn = Except.error (PyErr.attributeError attrMsg) := by
  simp [calculate_target_thermo, high_sum_err rxn.species 0 h, Except.map]

/-- Reaction with one companion that has no high-level data. -/
def rxnC2 : ErrorCancelingReaction :=
  ⟨⟨molC, 50, "levelX", none, none⟩, "levelX",
    [(⟨molC, 30, "levelX", none, none⟩, 1)]⟩

/-- Witness for C2: the concrete reaction with a data-less companion fails
with the missing-data error. -/
theorem c2_missing_high_level_raises_witness :
    calculate_target_thermo rxnC2 = Except.error (PyErr.attributeError attrMsg) :=
  c2_missing_high_level_raises rxnC2 (by decide)

/-- C3: reaction construction succeeds exactly when every companion's model
chemistry equals the target's, and raises the ValueError consistency error
exactly when some companion's differs, regardless of coefficients. -/
theorem c3_model_chemistry_consistency (target : ErrorCancelingSpecies)
    (species : List (ErrorCancelingSpecies × ℚ)) :
    (ErrorCancelingReaction.init target species =
        Except.ok ⟨target, target.model_chemistry, species⟩ ↔
      ∀ p ∈ species, p.1.model_chemistry = target.model_chemistry) ∧
    ((∃ msg, ErrorCancelingReaction.init target species =
        Except.error (PyErr.valueError msg)) ↔
      ∃ p ∈ species, p.1.model_chemistry ≠ target.model_chemistry) := by
  cases hf : species.find? (fun p => p.1.model_chemistry != target.model_chemistry) with
  | none =>
    have hall := List.find?_eq_none.mp hf
    constructor
    · simp only [ErrorCancelingReaction.init, hf]
      constructor
      · intro _ p hp
        have := hall p hp
        simpa using this
      · intro _; trivial
    · simp only [ErrorCancelingReaction.init, hf]
      constructor
      · rintro ⟨msg, hmsg⟩; cases hmsg
      · rintro ⟨p, hp, hne⟩
        exact absurd (by simpa using hall p hp) hne
  | some p =>
    have hmem := List.mem_of_find?_eq_some hf
    have hne : p.1.model_chemistry ≠ target.model_chemistry := by
      have := List.find?_some hf
      simpa using this
    constructor
    · simp only [ErrorCancelingReaction.init, hf]
      constructor
      · intro hcontra; cases hcontra
      · intro hall; exact absurd (hall p hmem) hne
    · simp only [ErrorCancelingReaction.init, hf]
      exact ⟨fun _ => ⟨p, hmem, hne⟩, fun _ => ⟨_, rfl⟩⟩

/-- C10: a reaction constructed with an empty companion mapping is valid and
its estimated enthalpy degenerates to the target's own low-level value. -/
theorem c10_empty_companions_returns_low_level (target : ErrorCancelingSpecies) :
    ErrorCancelingReaction.init target [] =
        Except.ok ⟨target, target.model_chemistry, []⟩ ∧
      calculate_target_thermo ⟨target, target.model_chemistry, []⟩ =
        Except.ok target.low_level_hf298 := by
  refine ⟨rfl, ?_⟩
  simp [calculate_target_thermo, high_sum, Except.map]

/-- Python dict comprehension with enumerate starting at offset j:
the label list ls becomes the pairs (ls[i], j + i). -/
def enumFrom : Nat → List String → List (String × Nat)
  | _, [] => []
  | j, l :: ls => (l, j) :: enumFrom (j + 1) ls

/-- The ring-size label string built at isodesmic.py line 182. -/
def ring_label (n : Nat) : String := toString n ++ "_ring"

/-- The contents of the Python set of ring-size labels of the target
(isodesmic.py lines 182-183): the distinct ring-size labels. -/
def ring_labels (m : Molecule) : List String := (m.rings.map ring_label).dedup

/-- SpeciesConstraints._get_constraint_map (isodesmic.py lines 173-186):
atom labels are indexed first in dict order, then (if conserve_bonds) bond
labels offset by the current map size, then (if conserve_ring_size) the
ring-size labels.  The ring-size labels are drawn from a Python set whose
iteration order is not fixed by the code (string hashing is randomized per
process); ringOrder is that iteration order, an arbitrary permutation of
ring_labels. -/
def get_constraint_map (target : Molecule) (conserve_bonds conserve_ring_size : Bool)
    (ringOrder : List String) : List (String × Nat) :=
  let m1 := enumFrom 0 (target.elementCount.map Prod.fst)
  let m2 := if conserve_bonds
    then m1 ++ enumFrom m1.length (target.bonds.map Prod.fst) else m1
  if conserve_ring_size then m2 ++ enumFrom m2.length ringOrder else m2

/-- Dict lookup self.constraint_map[label]: the index stored for the label,
or none (KeyError) when the label is absent. -/
def lookupIdx (cmap : List (String × Nat)) (label : String) : Option Nat :=
  (cmap.find? (fun p => p.1 == label)).map Prod.snd

/-- constraint_vector[i] += c  on a dense integer vector. -/
def addAt (v : List Int) (i : Nat) (c : Int) : List Int :=
  v.set i (v.getD i 0 + c)

/-- One feature loop of SpeciesConstraints._enumerate_constraints: for each
(label, count) pair add count at the index the constraint map assigns to
label, raising KeyError (none) at the first absent label. -/
def addCounts (cmap : List (String × Nat)) :
    List (String × Int) → List Int → Option (List Int)
  | [], v => some v
  | p :: t, v =>
    match lookupIdx cmap p.1 with
    | some i => addCounts cmap t (addAt v i p.2)
    | none => none

/-- SpeciesConstraints._enumerate_constraints (isodesmic.py lines 188-219):
a zero vector of the map's length accumulates the molecule's element counts,
then its bond counts when conserve_bonds, then one per ring when
conserve_ring_size; any feature absent from the map yields none (the caught
KeyError signalling incompatibility). -/
def enumerate_constraints (cmap : List (String × Nat))
    (conserve_bonds conserve_ring_size : Bool) (m : Molecule) :
    Option (List Int) :=
  (addCounts cmap (m.elementCount.map (fun p => (p.1, (p.2 : Int))))
      (List.replicate cmap.length 0)).bind (fun v1 =>
    (if conserve_bonds
        then addCounts cmap (m.bonds.map (fun p => (p.1, (p.2 : Int)))) v1
        else some v1).bind (fun v2 =>
      if conserve_ring_size
        then addCounts cmap (m.rings.map (fun n => (ring_label n, 1))) v2
        else some v2))

/-- The feature labels a molecule exhibits under the two conservation
switches: element labels, bond labels when conserve_bonds, and one ring-size
label per ring when conserve_ring_size. -/
def features (conserve_bonds conserve_ring_size : Bool) (m : Molecule) :
    List String :=
  m.elementCount.map Prod.fst ++
    (if conserve_bonds then m.bonds.map Prod.fst else []) ++
    (if conserve_ring_size then m.rings.map ring_label else [])

/-- SpeciesConstraints record (isodesmic.py lines 144-171). -/
structure SpeciesConstraints where
  target : ErrorCancelingSpecies
  all_reference_species : List ErrorCancelingSpecies
  reference_species : List ErrorCancelingSpecies
  conserve_bonds : Bool
  conserve_ring_size : Bool
  constraint_map : List (String × Nat)
deriving DecidableEq, Repr

/-- SpeciesConstraints.__init__ (isodesmic.py lines 149-171): stores the
arguments, starts reference_species empty and freezes the constraint map
derived from the target.  ringOrder is the iteration order of the Python set
of the target's ring-size labels (see get_constraint_map). -/
def SpeciesConstraints.init (target : ErrorCancelingSpecies)
    (reference_list : List ErrorCancelingSpecies)
    (conserve_bonds conserve_ring_size : Bool) (ringOrder : List String) :
    SpeciesConstraints :=
  { target := target
    all_reference_species := reference_list
    reference_species := []
    conserve_bonds := conserve_bonds
    conserve_ring_size := conserve_ring_size
    constraint_map :=
      get_constraint_map target.molecule conserve_bonds conserve_ring_size ringOrder }

/-- SpeciesConstraints.calculate_constraints (isodesmic.py lines 221-238):
vectorizes the target, then walks all_reference_species appending each
compatible species to self.reference_species (which is NOT reset) and its
vector to a fresh matrix.  Returns the target vector, the matrix, and the
updated object state. -/
def calculate_constraints (sc : SpeciesConstraints) :
    Option (List Int) × List (List Int) × SpeciesConstraints :=
  let target_constraints := enumerate_constraints sc.constraint_map
    sc.conserve_bonds sc.conserve_ring_size sc.target.molecule
  let acc := sc.all_reference_species.foldl
    (fun (acc : List ErrorCancelingSpecies × List (List Int)) spcs =>
      match enumerate_constraints sc.constraint_map sc.conserve_bonds
          sc.conserve_ring_size spcs.molecule with
      | some v => (acc.1 ++ [spcs], acc.2 ++ [v])
      | none => acc)
    (sc.reference_species, ([] : List (List Int)))
  (target_constraints, acc.2, { sc with reference_species := acc.1 })

lemma enumFrom_length (j : Nat) (ls : List String) :
    (enumFrom j ls).length = ls.length := by
  induction ls generalizing j with
  | nil => rfl
  | cons l t ih => simp [enumFrom, ih]

lemma enumFrom_map_fst (j : Nat) (ls : List String) :
    (enumFrom j ls).map Prod.fst = ls := by
  induction ls generalizing j with
  | nil => rfl
  | cons l t ih => simp [enumFrom, ih]

lemma enumFrom_snd_lt (j : Nat) (ls : List String) (l : String) (i : Nat)
    (h : (l, i) ∈ enumFrom j ls) : i < j + ls.length := by
  induction ls generalizing j with
  | nil => simp [enumFrom] at h
  | cons a t ih =>
    rcases List.mem_cons.mp h with heq | hmem
    · cases heq
      simp
    · have := ih (j + 1) hmem
      simpa [Nat.add_comm, Nat.add_left_comm, Nat.add_assoc] using
        Nat.lt_of_lt_of_le this (by omega)

lemma lookupIdx_cons (q : String × Nat) (t : List (String × Nat)) (l : String) :
    lookupIdx (q :: t) l = if q.1 == l then some q.2 else lookupIdx t l := by
  by_cases h : q.1 = l
  · subst h
    simp [lookupIdx, List.find?]
  · have h' : (q.1 == l) = false := by simpa using h
    simp [lookupIdx, List.find?, h']

lemma lookupIdx_isSome (cmap : List (String × Nat)) (l : String) :
    (lookupIdx cmap l).isSome ↔ l ∈ cmap.map Prod.fst := by
  induction cmap with
  | nil => simp [lookupIdx]
  | cons q t ih =>
    rw [lookupIdx_cons, List.map_cons, List.mem_cons]
    by_cases hq : q.1 = l
    · have hq' : (q.1 == l) = true := by simpa using hq
      simp [hq', hq]
    · have hq' : (q.1 == l) = false := by simpa using hq
      rw [hq']
      simp only [Bool.false_eq_true, if_false]
      constructor
      · intro h
        exact Or.inr (ih.mp h)
      · rintro (h | h)
        · exact absurd h.symm hq
        · exact ih.mpr h

lemma lookupIdx_mem (cmap : List (String × Nat)) (l : String) (i : Nat)
    (h : lookupIdx cmap l = some i) : (l, i) ∈ cmap := by
  induction cmap with
  | nil => simp [lookupIdx] at h
  | cons q t ih =>
    rw [lookupIdx_cons] at h
    by_cases hq : q.1 = l
    · have hq' : (q.1 == l) = true := by simpa using hq
      rw [hq', if_pos rfl] at h
      refine List.mem_cons.mpr (Or.inl ?_)
      cases q
      simp_all
    · have hq' : (q.1 == l) = false := by simpa using hq
      rw [hq'] at h
      simp only [Bool.false_eq_true, if_false] at h
      exact List.mem_cons_of_mem q (ih h)

lemma addAt_length (v : List Int) (i : Nat) (c : Int) :
    (addAt v i c).length = v.length := by
  simp [addAt]

lemma addAt_sum (v : List Int) (i : Nat) (c : Int) (h : i < v.length) :
    (addAt v i c).sum = v.sum + c := by
  induction v generalizing i with
  | nil => simp at h
  | cons a t ih =>
    cases i with
    | zero => simp [addAt, List.getD]; ring
    | succ n =>
      have hn : n < t.length := by simpa using h
      have := ih n hn
      simp only [addAt, List.set_cons_succ, List.sum_cons, List.getD_cons_succ] at *
      rw [this]
      ring

lemma addCounts_cons_none (cmap : List (String × Nat)) (p : String × Int)
    (t : List (String × Int)) (v : List Int) (h : lookupIdx cmap p.1 = none) :
    addCounts cmap (p :: t) v = none := by
  simp [addCounts, h]

lemma addCounts_cons_some (cmap : List (String × Nat)) (p : String × Int)
    (t : List (String × Int)) (v : List Int) (i : Nat)
    (h : lookupIdx cmap p.1 = some i) :
    addCounts cmap (p :: t) v = addCounts cmap t (addAt v i p.2) := by
  simp [addCounts, h]

lemma addCounts_isSome (cmap : List (String × Nat)) (items : List (String × Int))
    (v : List Int) :
    (addCounts cmap items v).isSome ↔ ∀ p ∈ items, p.1 ∈ cmap.map Prod.fst := by
  induction items generalizing v with
  | nil => simp [addCounts]
  | cons p t ih =>
    cases hl : lookupIdx cmap p.1 with
    | none =>
      have hnot : ¬ p.1 ∈ cmap.map Prod.fst := by
        rw [← lookupIdx_isSome, hl]
        simp
      rw [addCounts_cons_none cmap p t v hl]
      constructor
      · intro h
        simp at h
      · intro hall
        exact absurd (hall p (List.mem_cons_self p t)) hnot
    | some i =>
      have hp : p.1 ∈ cmap.map Prod.fst := by
        rw [← lookupIdx_isSome, hl]
        simp
      rw [addCounts_cons_some cmap p t v i hl, ih (addAt v i p.2)]
      constructor
      · intro h q hq
        rcases List.mem_cons.mp hq with rfl | hqt
        · exact hp
        · exact h q hqt
      · intro h q hq
        exact h q (List.mem_cons_of_mem p hq)

lemma addCounts_spec (cmap : List (String × Nat)) (items : List (String × Int))
    (v : List Int) (hb : ∀ q ∈ cmap, q.2 < v.length)
    (hk : ∀ p ∈ items, p.1 ∈ cmap.map Prod.fst) :
    ∃ w, addCounts cmap items v = some w ∧ w.length = v.length ∧
      w.sum = v.sum + (items.map Prod.snd).sum := by
  induction items generalizing v with
  | nil => exact ⟨v, rfl, rfl, by simp⟩
  | cons p t ih =>
    have hp : p.1 ∈ cmap.map Prod.fst := hk p (List.mem_cons_self p t)
    have hsome : (lookupIdx cmap p.1).isSome := (lookupIdx_isSome cmap p.1).mpr hp
    rcases Option.isSome_iff_exists.mp hsome with ⟨i, hi⟩
    have hmem := lookupIdx_mem cmap p.1 i hi
    have hilt : i < v.length := hb (p.1, i) hmem
    have hb' : ∀ q ∈ cmap, q.2 < (addAt v i p.2).length := by
      rw [addAt_length]; exact hb
    have hk' : ∀ q ∈ t, q.1 ∈ cmap.map Prod.fst :=
      fun q hq => hk q (List.mem_cons_of_mem p hq)
    rcases ih (addAt v i p.2) hb' hk' with ⟨w, hw, hwl, hws⟩
    refine ⟨w, ?_, ?_, ?_⟩
    · simp [addCounts, hi, hw]
    · rw [hwl, addAt_length]
    · rw [hws, addAt_sum v i p.2 hilt]
      simp
      ring

lemma forall_fst_pairmap (l : List (String × Nat)) (K : List String) :
    (∀ p ∈ l.map (fun p => (p.1, (p.2 : Int))), p.1 ∈ K) ↔
      ∀ f ∈ l.map Prod.fst, f ∈ K := by
  constructor
  · intro h f hf
    rcases List.mem_map.mp hf with ⟨x, hx, rfl⟩
    exact h (x.1, (x.2 : Int)) (List.mem_map.mpr ⟨x, hx, rfl⟩)
  · intro h p hp
    rcases List.mem_map.mp hp with ⟨x, hx, rfl⟩
    exact h x.1 (List.mem_map.mpr ⟨x, hx, rfl⟩)

lemma addCountsA_isSome (cmap : List (String × Nat)) (m : Molecule) (v : List Int) :
    (addCounts cmap (m.elementCount.map (fun p => (p.1, (p.2 : Int)))) v).isSome ↔
      ∀ f ∈ m.elementCount.map Prod.fst, f ∈ cmap.map Prod.fst := by
  rw [addCounts_isSome]
  exact forall_fst_pairmap m.elementCount (cmap.map Prod.fst)

lemma addCountsB_isSome (cmap : List (String × Nat)) (m : Molecule) (v : List Int) :
    (addCounts cmap (m.bonds.map (fun p => (p.1, (p.2 : Int)))) v).isSome ↔
      ∀ f ∈ m.bonds.map Prod.fst, f ∈ cmap.map Prod.fst := by
  rw [addCounts_isSome]
  exact forall_fst_pairmap m.bonds (cmap.map Prod.fst)

lemma addCountsR_isSome (cmap : List (String × Nat)) (m : Molecule) (v : List Int) :
    (addCounts cmap (m.rings.map (fun n => (ring_label n, 1))) v).isSome ↔
      ∀ f ∈ m.rings.map ring_label, f ∈ cmap.map Prod.fst := by
  rw [addCounts_isSome]
  simp

lemma enumerate_isSome (cmap : List (String × Nat)) (cb crs : Bool) (m : Molecule) :
    (enumerate_constraints cmap cb crs m).isSome ↔
      ((∀ f ∈ m.elementCount.map Prod.fst, f ∈ cmap.map Prod.fst) ∧
       (cb = true → ∀ f ∈ m.bonds.map Prod.fst, f ∈ cmap.map Prod.fst) ∧
       (crs = true → ∀ f ∈ m.rings.map ring_label, f ∈ cmap.map Prod.fst)) := by
  by_cases hA : ∀ f ∈ m.elementCount.map Prod.fst, f ∈ cmap.map Prod.fst
  case neg =>
    have h1 : addCounts cmap (m.elementCount.map (fun p => (p.1, (p.2 : Int))))
        (List.replicate cmap.length 0) = none := by
      rw [← Option.not_isSome_iff_eq_none, Bool.not_eq_true, ← Bool.not_eq_true,
        addCountsA_isSome]
      exact hA
    refine iff_of_false ?_ (fun hc => hA hc.1)
    simp [enumerate_constraints, h1]
  case pos =>
    have h1 : (addCounts cmap (m.elementCount.map (fun p => (p.1, (p.2 : Int))))
        (List.replicate cmap.length 0)).isSome := (addCountsA_isSome _ _ _).mpr hA
    rcases Option.isSome_iff_exists.mp h1 with ⟨v1, hv1⟩
    cases cb with
    | false =>
      cases crs with
      | false =>
        refine iff_of_true ?_ ⟨hA, by simp, by simp⟩
        simp [enumerate_constraints, hv1]
      | true =>
        by_cases hR : ∀ f ∈ m.rings.map ring_label, f ∈ cmap.map Prod.fst
        · have h3 : (addCounts cmap (m.rings.map (fun n => (ring_label n, 1))) v1).isSome :=
            (addCountsR_isSome _ _ _).mpr hR
          rcases Option.isSome_iff_exists.mp h3 with ⟨v3, hv3⟩
          refine iff_of_true ?_ ⟨hA, by simp, fun _ => hR⟩
          simp [enumerate_constraints, hv1, hv3]
        · have h3 : addCounts cmap (m.rings.map (fun n => (ring_label n, 1))) v1 = none := by
            rw [← Option.not_isSome_iff_eq_none, Bool.not_eq_true, ← Bool.not_eq_true,
              addCountsR_isSome]
            exact hR
          refine iff_of_false ?_ (fun hc => hR (hc.2.2 rfl))
          simp [enumerate_constraints, hv1, h3]
    | true =>
      by_cases hB : ∀ f ∈ m.bonds.map Prod.fst, f ∈ cmap.map Prod.fst
      · have h2 : (addCounts cmap (m.bonds.map (fun p => (p.1, (p.2 : Int)))) v1).isSome :=
          (addCountsB_isSome _ _ _).mpr hB
        rcases Option.isSome_iff_exists.mp h2 with ⟨v2, hv2⟩
        cases crs with
        | false =>
          refine iff_of_true ?_ ⟨hA, fun _ => hB, by simp⟩
          simp [enumerate_constraints, hv1, hv2]
        | true =>
          by_cases hR : ∀ f ∈ m.rings.map ring_label, f ∈ cmap.map Prod.fst
          · have h3 : (addCounts cmap (m.rings.map (fun n => (ring_label n, 1))) v2).isSome :=
              (addCountsR_isSome _ _ _).mpr hR
            rcases Option.isSome_iff_exists.mp h3 with ⟨v3, hv3⟩
            refine iff_of_true ?_ ⟨hA, fun _ => hB, fun _ => hR⟩
            simp [enumerate_constraints, hv1, hv2, hv3]
          · have h3 : addCounts cmap (m.rings.map (fun n => (ring_label n, 1))) v2 = none := by
              rw [← Option.not_isSome_iff_eq_none, Bool.not_eq_true, ← Bool.not_eq_true,
                addCountsR_isSome]
              exact hR
            refine iff_of_false ?_ (fun hc => hR (hc.2.2 rfl))
            simp [enumerate_constraints, hv1, hv2, h3]
      · have h2 : addCounts cmap (m.bonds.map (fun p => (p.1, (p.2 : Int)))) v1 = none := by
          rw [← Option.not_isSome_iff_eq_none, Bool.not_eq_true, ← Bool.not_eq_true,
            addCountsB_isSome]
          exact hB
        refine iff_of_false ?_ (fun hc => hB (hc.2.1 rfl))
        simp [enumerate_constraints, hv1, h2]

lemma enumerate_isSome_features (cmap : List (String × Nat)) (cb crs : Bool)
    (m : Molecule) :
    (enumerate_constraints cmap cb crs m).isSome ↔
      ∀ f ∈ features cb crs m, f ∈ cmap.map Prod.fst := by
  rw [enumerate_isSome]
  constructor
  · rintro ⟨hA, hB, hR⟩ f hf
    unfold features at hf
    rcases List.mem_append.mp hf with hf | hf
    · rcases List.mem_append.mp hf with hf | hf
      · exact hA f hf
      · cases cb with
        | false => simp at hf
        | true => exact hB rfl f (by simpa using hf)
    · cases crs with
      | false => simp at hf
      | true => exact hR rfl f (by simpa using hf)
  · intro h
    refine ⟨?_, ?_, ?_⟩
    · intro f hf
      refine h f ?_
      unfold features
      exact List.mem_append.mpr (Or.inl (List.mem_append.mpr (Or.inl hf)))
    · intro hcb f hf
      subst hcb
      refine h f ?_
      unfold features
      exact List.mem_append.mpr (Or.inl (List.mem_append.mpr (Or.inr (by simpa using hf))))
    · intro hcrs f hf
      subst hcrs
      refine h f ?_
      unfold features
      exact List.mem_append.mpr (Or.inr (by simpa using hf))

lemma calc_foldl (K : List (String × Nat)) (cb crs : Bool)
    (l : List ErrorCancelingSpecies) (a0 : List ErrorCancelingSpecies)
    (b0 : List (List Int)) :
    l.foldl (fun (acc : List ErrorCancelingSpecies × List (List Int)) spcs =>
      match enumerate_constraints K cb crs spcs.molecule with
      | some v => (acc.1 ++ [spcs], acc.2 ++ [v])
      | none => acc) (a0, b0) =
    (a0 ++ l.filter (fun s => (enumerate_constraints K cb crs s.molecule).isSome),
      b0 ++ l.filterMap (fun s => enumerate_constraints K cb crs s.molecule)) := by
  induction l generalizing a0 b0 with
  | nil => simp
  | cons s t ih =>
    cases hs : enumerate_constraints K cb crs s.molecule with
    | none =>
      simp only [List.foldl_cons, hs]
      rw [ih a0 b0]
      simp [List.filter_cons, List.filterMap_cons, hs]
    | some v =>
      simp only [List.foldl_cons, hs]
      rw [ih (a0 ++ [s]) (b0 ++ [v])]
      simp [List.filter_cons, List.filterMap_cons, hs, List.append_assoc]

lemma length_filterMap_eq_filter {α β : Type} (e : α → Option β) (l : List α) :
    (l.filterMap e).length = (l.filter (fun s => (e s).isSome)).length := by
  induction l with
  | nil => rfl
  | cons s t ih =>
    cases hs : e s <;> simp [List.filter_cons, List.filterMap_cons, hs, ih]

lemma constraint_map_keys (target : Molecule) (cb crs : Bool)
    (ringOrder : List String) :
    (get_constraint_map target cb crs ringOrder).map Prod.fst =
      target.elementCount.map Prod.fst ++
        (if cb then target.bonds.map Prod.fst else []) ++
        (if crs then ringOrder else []) := by
  unfold get_constraint_map
  cases cb <;> cases crs <;> simp [enumFrom_map_fst]

lemma replicate_zero_sum (n : Nat) : (List.replicate n (0 : Int)).sum = 0 := by
  induction n with
  | zero => rfl
  | succ k ih => simp [List.replicate_succ, ih]

/-- C6: with bond and ring conservation both disabled, the label space built
from a target with N distinct element labels has exactly N entries, and the
target's constraint vector sums to the target's total atom count (the sum of
its per-element atom counts). -/
theorem c6_label_space_size_and_atom_count (tgt : ErrorCancelingSpecies)
    (refs : List ErrorCancelingSpecies)
    (hnd : (tgt.molecule.elementCount.map Prod.fst).Nodup) :
    (SpeciesConstraints.init tgt refs false false []).constraint_map.length =
        tgt.molecule.elementCount.length ∧
      ∃ v, (calculate_constraints (SpeciesConstraints.init tgt refs false false [])).1 =
          some v ∧
        v.sum = (tgt.molecule.elementCount.map (fun p => (p.2 : Int))).sum := by
  have hmap : (SpeciesConstraints.init tgt refs false false []).constraint_map =
      enumFrom 0 (tgt.molecule.elementCount.map Prod.fst) := rfl
  constructor
  · rw [hmap, enumFrom_length, List.length_map]
  · have hb : ∀ q ∈ enumFrom 0 (tgt.molecule.elementCount.map Prod.fst),
        q.2 < (List.replicate
          (enumFrom 0 (tgt.molecule.elementCount.map Prod.fst)).length
          (0 : Int)).length := by
      intro q hq
      rw [List.length_replicate, enumFrom_length]
      have := enumFrom_snd_lt 0 (tgt.molecule.elementCount.map Prod.fst) q.1 q.2
        (by simpa using hq)
      simpa using this
    have hk : ∀ p ∈ tgt.molecule.elementCount.map (fun p => (p.1, (p.2 : Int))),
        p.1 ∈ (enumFrom 0 (tgt.molecule.elementCount.map Prod.fst)).map Prod.fst := by
      intro p hp
      rw [enumFrom_map_fst]
      rcases List.mem_map.mp hp with ⟨x, hx, rfl⟩
      exact List.mem_map.mpr ⟨x, hx, rfl⟩
    rcases addCounts_spec (enumFrom 0 (tgt.molecule.elementCount.map Prod.fst))
      (tgt.molecule.elementCount.map (fun p => (p.1, (p.2 : Int))))
      (List.replicate (enumFrom 0 (tgt.molecule.elementCount.map Prod.fst)).length 0)
      hb hk with ⟨w, hw, hwl, hws⟩
    refine ⟨w, ?_, ?_⟩
    · show enumerate_constraints (enumFrom 0 (tgt.molecule.elementCount.map Prod.fst))
        false false tgt.molecule = some w
      simp [enumerate_constraints, hw]
    · rw [hws, replicate_zero_sum, zero_add]
      rw [List.map_map]
      rfl

/-- Concrete target for the C6 witness: one carbon and four hydrogens. -/
def tgt6 : ErrorCancelingSpecies := ⟨⟨[("C", 1), ("H", 4)], [], []⟩, 0, "x", none, none⟩

/-- Witness for C6 at the concrete methane-like target. -/
theorem c6_label_space_size_and_atom_count_witness :
    (SpeciesConstraints.init tgt6 [] false false []).constraint_map.length =
        tgt6.molecule.elementCount.length ∧
      ∃ v, (calculate_constraints (SpeciesConstraints.init tgt6 [] false false [])).1 =
          some v ∧
        v.sum = (tgt6.molecule.elementCount.map (fun p => (p.2 : Int))).sum :=
  c6_label_space_size_and_atom_count tgt6 [] (by decide)

/-- C4: a candidate is accepted iff all its features (atoms; bonds when
conserve_bonds; ring sizes when conserve_ring_size) lie in the label space
derived from the target; incompatible candidates are silently dropped
(calculate_constraints is total), matrix rows pair up with accepted
candidates, both in input order, and the label space holds exactly the
target's features. -/
theorem c4_accepted_iff_features_in_label_space (tgt : ErrorCancelingSpecies)
    (refs : List ErrorCancelingSpecies) (cb crs : Bool) (ringOrder : List String)
    (hperm : ringOrder.Perm (ring_labels tgt.molecule)) :
    ((calculate_constraints (SpeciesConstraints.init tgt refs cb crs ringOrder)).2.2).reference_species =
        refs.filter (fun s =>
          (features cb crs s.molecule).all
            (fun f => ((SpeciesConstraints.init tgt refs cb crs ringOrder).constraint_map.map Prod.fst).contains f)) ∧
      (calculate_constraints (SpeciesConstraints.init tgt refs cb crs ringOrder)).2.1 =
        refs.filterMap (fun s =>
          enumerate_constraints (SpeciesConstraints.init tgt refs cb crs ringOrder).constraint_map cb crs s.molecule) ∧
      (calculate_constraints (SpeciesConstraints.init tgt refs cb crs ringOrder)).2.1.length =
        ((calculate_constraints (SpeciesConstraints.init tgt refs cb crs ringOrder)).2.2).reference_species.length ∧
      ∀ f, (f ∈ (SpeciesConstraints.init tgt refs cb crs ringOrder).constraint_map.map Prod.fst ↔
        f ∈ features cb crs tgt.molecule) := by
  have hBool : ∀ s : ErrorCancelingSpecies,
      (enumerate_constraints (get_constraint_map tgt.molecule cb crs ringOrder) cb crs s.molecule).isSome =
        (features cb crs s.molecule).all
          (fun f => ((get_constraint_map tgt.molecule cb crs ringOrder).map Prod.fst).contains f) := by
    intro s
    rw [Bool.eq_iff_iff, enumerate_isSome_features, List.all_eq_true]
    constructor
    · intro h f hf
      exact List.elem_iff.mpr (h f hf)
    · intro h f hf
      exact List.elem_iff.mp (h f hf)
  have haccept : ((calculate_constraints (SpeciesConstraints.init tgt refs cb crs ringOrder)).2.2).reference_species =
      refs.filter (fun s =>
        (enumerate_constraints (get_constraint_map tgt.molecule cb crs ringOrder) cb crs s.molecule).isSome) := by
    show (refs.foldl (fun (acc : List ErrorCancelingSpecies × List (List Int)) spcs =>
        match enumerate_constraints (get_constraint_map tgt.molecule cb crs ringOrder) cb crs spcs.molecule with
        | some v => (acc.1 ++ [spcs], acc.2 ++ [v])
        | none => acc) (([] : List ErrorCancelingSpecies), ([] : List (List Int)))).1 = _
    rw [calc_foldl]
    simp
  have hmatrix : (calculate_constraints (SpeciesConstraints.init tgt refs cb crs ringOrder)).2.1 =
      refs.filterMap (fun s =>
        enumerate_constraints (get_constraint_map tgt.molecule cb crs ringOrder) cb crs s.molecule) := by
    show (refs.foldl (fun (acc : List ErrorCancelingSpecies × List (List Int)) spcs =>
        match enumerate_constraints (get_constraint_map tgt.molecule cb crs ringOrder) cb crs spcs.molecule with
        | some v => (acc.1 ++ [spcs], acc.2 ++ [v])
        | none => acc) (([] : List ErrorCancelingSpecies), ([] : List (List Int)))).2 = _
    rw [calc_foldl]
    simp
  refine ⟨?_, hmatrix, ?_, ?_⟩
  · rw [haccept]
    exact List.filter_congr (fun s _ => hBool s)
  · rw [hmatrix, haccept]
    exact length_filterMap_eq_filter _ refs
  · intro f
    show f ∈ (get_constraint_map tgt.molecule cb crs ringOrder).map Prod.fst ↔
      f ∈ features cb crs tgt.molecule
    rw [constraint_map_keys]
    unfold features
    simp only [List.mem_append]
    have hring : (f ∈ if crs then ringOrder else []) ↔
        (f ∈ if crs then tgt.molecule.rings.map ring_label else []) := by
      cases crs with
      | false => exact Iff.rfl
      | true =>
        show f ∈ ringOrder ↔ f ∈ tgt.molecule.rings.map ring_label
        rw [hperm.mem_iff]
        exact List.mem_dedup
    rw [hring]

/-- Concrete target for the C4 witness: a one-carbon, no-bond, no-ring
molecule. -/
def tgt4 : ErrorCancelingSpecies := ⟨⟨[("C", 1)], [], []⟩, 0, "x", none, none⟩

/-- Concrete candidates for the C4 witness: a compatible pure-carbon species
and an incompatible oxygen-bearing one. -/
def refs4 : List ErrorCancelingSpecies :=
  [⟨⟨[("C", 2)], [], []⟩, 0, "x", some 0, none⟩,
   ⟨⟨[("O", 1)], [], []⟩, 0, "x", some 0, none⟩]

/-- Witness for C4 at a concrete target and candidate pool with both
conservation switches on. -/
theorem c4_accepted_iff_features_in_label_space_witness :
    ((calculate_constraints (SpeciesConstraints.init tgt4 refs4 true true [])).2.2).reference_species =
        refs4.filter (fun s =>
          (features true true s.molecule).all
            (fun f => ((SpeciesConstraints.init tgt4 refs4 true true []).constraint_map.map Prod.fst).contains f)) ∧
      (calculate_constraints (SpeciesConstraints.init tgt4 refs4 true true [])).2.1 =
        refs4.filterMap (fun s =>
          enumerate_constraints (SpeciesConstraints.init tgt4 refs4 true true []).constraint_map true true s.molecule) ∧
      (calculate_constraints (SpeciesConstraints.init tgt4 refs4 true true [])).2.1.length =
        ((calculate_constraints (SpeciesConstraints.init tgt4 refs4 true true [])).2.2).reference_species.length ∧
      ∀ f, (f ∈ (SpeciesConstraints.init tgt4 refs4 true true []).constraint_map.map Prod.fst ↔
        f ∈ features true true tgt4.molecule) :=
  c4_accepted_iff_features_in_label_space tgt4 refs4 true true [] (by decide)

/-- Concrete target for the C5 failing input. -/
def tgt5 : ErrorCancelingSpecies := ⟨molC, 0, "x", none, none⟩

/-- Concrete compatible candidate for the C5 failing input. -/
def cand5 : ErrorCancelingSpecies := ⟨molC, 0, "x", some 0, none⟩

/-- Concrete ConstraintSpace for the C5 failing input. -/
def sc5 : SpeciesConstraints := SpeciesConstraints.init tgt5 [cand5] false false []

/-- C5 (code bug): calling calculate_constraints twice on the same instance
returns the same matrix both times, but the stored accepted list
reference_species is appended to again rather than rebuilt, so after the
second call it holds the lone accepted candidate twice while the returned
matrix has a single row — the accepted list of the second call is not
identical to the first call's, contradicting the claimed idempotence and the
docstring shape len(reference_species) x n_constraints. -/
theorem c5_repeat_call_mutates_reference_species :
    (calculate_constraints (calculate_constraints sc5).2.2).2.1 =
        (calculate_constraints sc5).2.1 ∧
      ((calculate_constraints (calculate_constraints sc5).2.2).2.2).reference_species ≠
        ((calculate_constraints sc5).2.2).reference_species ∧
      ((calculate_constraints (calculate_constraints sc5).2.2).2.2).reference_species.length = 2 ∧
      (calculate_constraints (calculate_constraints sc5).2.2).2.1.length = 1 := by
  decide

/-- Concrete target molecule for the C9 counterexample: one ring of size 3
and one of size 4. -/
def mol9 : Molecule := ⟨[("C", 1)], [], [3, 4]⟩

/-- C9 counterexample: both orders of the two ring-size labels are admissible
iteration orders of the Python set at isodesmic.py lines 182-183 (string set
order is hash-dependent and changes between processes), and they produce
different constraint maps — so the label ordering is not a function of the
target and switches alone and is not reproducible run-to-run. -/
theorem c9_ring_label_order_not_determined :
    (["3_ring", "4_ring"] : List String).Perm (ring_labels mol9) ∧
      (["4_ring", "3_ring"] : List String).Perm (ring_labels mol9) ∧
      get_constraint_map mol9 true true ["3_ring", "4_ring"] ≠
        get_constraint_map mol9 true true ["4_ring", "3_ring"] := by
  refine ⟨by decide, by decide, by decide⟩

/-- C9 (amended): the atom-then-bond prefix of the constraint map is
deterministic in target first-seen order and independent of the ring-set
iteration order, the whole map is deterministic when ring conservation is
off, and full determinism also holds whenever the target has at most one
distinct ring size. -/
theorem c9_label_order_modulo_ring_sets (t : Molecule) (cb : Bool)
    (p1 p2 : List String) (h1 : p1.Perm (ring_labels t))
    (h2 : p2.Perm (ring_labels t)) :
    get_constraint_map t cb false p1 = get_constraint_map t cb false p2 ∧
      (get_constraint_map t cb true p1).take
          (t.elementCount.length + if cb then t.bonds.length else 0) =
        (get_constraint_map t cb true p2).take
          (t.elementCount.length + if cb then t.bonds.length else 0) ∧
      ((ring_labels t).length ≤ 1 →
        get_constraint_map t cb true p1 = get_constraint_map t cb true p2) := by
  have hform : ∀ p : List String, get_constraint_map t cb true p =
      get_constraint_map t cb false p ++
        enumFrom (get_constraint_map t cb false p).length p := by
    intro p
    cases cb <;> rfl
  have hA : get_constraint_map t cb false p1 = get_constraint_map t cb false p2 := by
    cases cb <;> rfl
  have hlen : (get_constraint_map t cb false p1).length =
      t.elementCount.length + if cb then t.bonds.length else 0 := by
    cases cb with
    | false =>
      show (enumFrom 0 (t.elementCount.map Prod.fst)).length = _
      rw [enumFrom_length, List.length_map]
      simp
    | true =>
      show (enumFrom 0 (t.elementCount.map Prod.fst) ++
        enumFrom (enumFrom 0 (t.elementCount.map Prod.fst)).length
          (t.bonds.map Prod.fst)).length = _
      rw [List.length_append, enumFrom_length, enumFrom_length,
        List.length_map, List.length_map]
      simp
  refine ⟨hA, ?_, ?_⟩
  · rw [hform p1, hform p2, ← hA]
    rw [List.take_left' hlen, List.take_left' hlen]
  · intro hle
    cases hrl : ring_labels t with
    | nil =>
      rw [hrl] at h1 h2
      rw [h1.eq_nil, h2.eq_nil]
    | cons a tl =>
      rw [hrl] at h1 h2 hle
      have htl : tl = [] := by
        rw [List.length_cons] at hle
        exact List.eq_nil_of_length_eq_zero (by omega)
      subst htl
      rw [List.perm_singleton.mp h1, List.perm_singleton.mp h2]

/-- Concrete target molecule for the C9 amended witness: a single ring size. -/
def mol9w : Molecule := ⟨[("C", 1)], [("C-C", 3)], [3]⟩

/-- Witness for the amended C9 at a concrete single-ring-size target. -/
theorem c9_label_order_modulo_ring_sets_witness :
    get_constraint_map mol9w true false ["3_ring"] =
        get_constraint_map mol9w true false ["3_ring"] ∧
      (get_constraint_map mol9w true true ["3_ring"]).take
          (mol9w.elementCount.length + if true then mol9w.bonds.length else 0) =
        (get_constraint_map mol9w true true ["3_ring"]).take
          (mol9w.elementCount.length + if true then mol9w.bonds.length else 0) ∧
      ((ring_labels mol9w).length ≤ 1 →
        get_constraint_map mol9w true true ["3_ring"] =
          get_constraint_map mol9w true true ["3_ring"]) :=
  c9_label_order_modulo_ring_sets mol9w true ["3_ring"] ["3_ring"]
    (by decide) (by decide)

/-- The slice of ReferenceSpecies used by get_preferred_source
(reference.py lines 291-314): the optional preferred_reference override and
the insertion-ordered reference_data dict, of whose entries only
thermo_data.H298.uncertainty_si is read. -/
structure ReferenceSpecies where
  preferred_reference : Option String
  reference_data : List (String × ℚ)
deriving DecidableEq, Repr

/-- The loop body of get_preferred_source: replace the running selection
only when the entry's uncertainty is strictly positive and strictly smaller
than the running uncertainty. -/
def pick (acc entry : String × ℚ) : String × ℚ :=
  if 0 < entry.2 ∧ entry.2 < acc.2 then entry else acc

/-- ReferenceSpecies.get_preferred_source (reference.py lines 291-314):
return the override if set; otherwise start from the first entry and scan
all entries with pick.  An empty reference_data raises IndexError at
sources[0]. -/
def get_preferred_source (rs : ReferenceSpecies) : Except PyErr String :=
  match rs.preferred_reference with
  | some p => Except.ok p
  | none =>
    match rs.reference_data with
    | [] => Except.error PyErr.indexError
    | first :: rest => Except.ok (((first :: rest).foldl pick first).1)

lemma pick_foldl_spec (l : List (String × ℚ)) (e : String × ℚ) :
    (l.foldl pick e = e ∧ ∀ q ∈ l, ¬(0 < q.2 ∧ q.2 < e.2)) ∨
    (∃ pre post, l = pre ++ (l.foldl pick e) :: post ∧
      0 < (l.foldl pick e).2 ∧ (l.foldl pick e).2 < e.2 ∧
      (∀ q ∈ pre, ¬(0 < q.2 ∧ q.2 ≤ (l.foldl pick e).2)) ∧
      (∀ q ∈ post, ¬(0 < q.2 ∧ q.2 < (l.foldl pick e).2))) := by
  induction l generalizing e with
  | nil => exact Or.inl ⟨rfl, by simp⟩
  | cons q t ih =>
    by_cases hc : 0 < q.2 ∧ q.2 < e.2
    · have hstep : (q :: t).foldl pick e = t.foldl pick q := by
        simp [List.foldl_cons, pick, hc]
      rcases ih q with ⟨heq, hall⟩ | ⟨pre, post, hsplit, hpos, hlt, hpre, hpost⟩
      · refine Or.inr ⟨[], t, ?_, ?_, ?_, by simp, ?_⟩
        · rw [hstep, heq]
          rfl
        · rw [hstep, heq]
          exact hc.1
        · rw [hstep, heq]
          exact hc.2
        · intro p hp
          rw [hstep, heq]
          exact hall p hp
      · refine Or.inr ⟨q :: pre, post, ?_, ?_, ?_, ?_, ?_⟩
        · rw [hstep, List.cons_append, ← hsplit]
        · rw [hstep]
          exact hpos
        · rw [hstep]
          exact lt_trans hlt hc.2
        · intro p hp
          rcases List.mem_cons.mp hp with rfl | hppre
          · rw [hstep]
            rintro ⟨hp1, hp2⟩
            exact absurd (lt_of_le_of_lt hp2 hlt) (lt_irrefl _)
          · rw [hstep]
            exact hpre p hppre
        · intro p hp
          rw [hstep]
          exact hpost p hp
    · have hstep : (q :: t).foldl pick e = t.foldl pick e := by
        simp [List.foldl_cons, pick, hc]
      rcases ih e with ⟨heq, hall⟩ | ⟨pre, post, hsplit, hpos, hlt, hpre, hpost⟩
      · refine Or.inl ⟨by rw [hstep, heq], ?_⟩
        intro p hp
        rcases List.mem_cons.mp hp with rfl | hpt
        · exact hc
        · exact hall p hpt
      · refine Or.inr ⟨q :: pre, post, ?_, ?_, ?_, ?_, ?_⟩
        · rw [hstep, List.cons_append, ← hsplit]
        · rw [hstep]
          exact hpos
        · rw [hstep]
          exact hlt
        · intro p hp
          rcases List.mem_cons.mp hp with rfl | hppre
          · rw [hstep]
            rintro ⟨hp1, hp2⟩
            exact hc ⟨hp1, lt_of_le_of_lt hp2 hlt⟩
          · rw [hstep]
            exact hpre p hppre
        · intro p hp
          rw [hstep]
          exact hpost p hp

/-- C8 (amended): with no override and nonempty data, the selection is an
entry of the data whose uncertainty is at most the first entry's and at most
every strictly positive uncertainty; a selection other than the first entry
has strictly positive uncertainty (so a zero-uncertainty entry is never
selected unless it is the first entry), and every entry before the selected
occurrence has a different uncertainty (first-seen order breaks ties). -/
theorem c8_preferred_source_selection (rs : ReferenceSpecies) (s0 : String)
    (u0 : ℚ) (rest : List (String × ℚ)) (hp : rs.preferred_reference = none)
    (hd : rs.reference_data = (s0, u0) :: rest) :
    ∃ sel : String × ℚ,
      get_preferred_source rs = Except.ok sel.1 ∧
      sel ∈ rs.reference_data ∧
      sel.2 ≤ u0 ∧
      (∀ q ∈ rs.reference_data, 0 < q.2 → sel.2 ≤ q.2) ∧
      (sel ≠ (s0, u0) → 0 < sel.2) ∧
      ∃ pre post, rs.reference_data = pre ++ sel :: post ∧
        ∀ q ∈ pre, q.2 ≠ sel.2 := by
  have hres : get_preferred_source rs =
      Except.ok ((((s0, u0) :: rest).foldl pick (s0, u0)).1) := by
    unfold get_preferred_source
    rw [hp, hd]
  rcases pick_foldl_spec ((s0, u0) :: rest) (s0, u0) with
    ⟨heq, hall⟩ | ⟨pre, post, hsplit, hpos, hlt, hpre, hpost⟩
  · refine ⟨(s0, u0), ?_, ?_, le_refl _, ?_, ?_, [], rest, ?_, by simp⟩
    · rw [hres, heq]
    · rw [hd]
      exact List.mem_cons_self _ _
    · intro q hq hqpos
      rw [hd] at hq
      have := hall q hq
      push_neg at this
      exact this hqpos
    · intro hne
      exact absurd rfl hne
    · rw [hd]
      rfl
  · set r := ((s0, u0) :: rest).foldl pick (s0, u0) with hr
    refine ⟨r, ?_, ?_, le_of_lt hlt, ?_, fun _ => hpos, pre, post, ?_, ?_⟩
    · rw [hres]
    · rw [hd, hsplit]
      exact List.mem_append.mpr (Or.inr (List.mem_cons_self _ _))
    · intro q hq hqpos
      rw [hd, hsplit] at hq
      rcases List.mem_append.mp hq with hqpre | hqpost
      · have := hpre q hqpre
        push_neg at this
        exact le_of_lt (this hqpos)
      · rcases List.mem_cons.mp hqpost with rfl | hqpost'
        · exact le_refl _
        · have := hpost q hqpost'
          push_neg at this
          exact this hqpos
    · rw [hd]
      exact hsplit
    · intro q hqpre hqeq
      exact hpre q hqpre ⟨hqeq.symm ▸ hpos, le_of_eq hqeq⟩

/-- Concrete ReferenceSpecies for the C8 amended witness. -/
def rsW : ReferenceSpecies := ⟨none, [("a", 3), ("b", 1), ("c", 1)]⟩

/-- Witness for the amended C8 at a concrete three-source record. -/
theorem c8_preferred_source_selection_witness :
    ∃ sel : String × ℚ,
      get_preferred_source rsW = Except.ok sel.1 ∧
      sel ∈ rsW.reference_data ∧
      sel.2 ≤ 3 ∧
      (∀ q ∈ rsW.reference_data, 0 < q.2 → sel.2 ≤ q.2) ∧
      (sel ≠ ("a", 3) → 0 < sel.2) ∧
      ∃ pre post, rsW.reference_data = pre ++ sel :: post ∧
        ∀ q ∈ pre, q.2 ≠ sel.2 :=
  c8_preferred_source_selection rsW "a" 3 [("b", 1), ("c", 1)] rfl rfl

/-- Concrete ReferenceSpecies refuting C8 as stated. -/
def rsZ : ReferenceSpecies := ⟨none, [("a", 0), ("b", 5)]⟩

/-- C8 counterexample: with entries a (uncertainty 0) and b (uncertainty 5),
the zero-uncertainty entry a IS selected as the preferred source even though
it is not the only entry — the initial selection is never displaced because
no uncertainty is strictly below 0, refuting the claim that a
zero-uncertainty entry is never selected unless it is the only entry. -/
theorem c8_zero_uncertainty_first_selected :
    get_preferred_source rsZ = Except.ok "a" ∧
      ("a", (0 : ℚ)) ∈ rsZ.reference_data ∧
      rsZ.reference_data.length = 2 := by
  refine ⟨?_, by decide, rfl⟩
  show Except.ok (((("a", (0 : ℚ)) :: [("b", 5)]).foldl pick ("a", 0)).1) =
    Except.ok "a"
  norm_num [pick]

/-- C7 counterexample: constructing a species with a genuine Molecule, an
EMPTY level-of-theory string and a valid low-level enthalpy succeeds — the
constructor only checks isinstance(model_chemistry, str), so the empty tag is
accepted, not rejected. -/
theorem c7_empty_model_chemistry_accepted :
    ErrorCancelingSpecies.init (PyObj.mol molC) 50 (PyObj.str "") none none =
      Except.ok ⟨molC, 50, "", none, none⟩ := rfl

/-- C7 (amended): species construction succeeds exactly when the molecule
argument is a Molecule and the level-of-theory argument is a string (of any
content, including empty), and otherwise raises the typed ValueError
construction error immediately. -/
theorem c7_type_checks_only (mo tg : PyObj) (low : ℚ) (high : Option ℚ)
    (src : Option String) :
    ((∃ sp, ErrorCancelingSpecies.init mo low tg high src = Except.ok sp) ↔
      ((∃ m, mo = PyObj.mol m) ∧ (∃ s, tg = PyObj.str s))) ∧
    ((∃ msg, ErrorCancelingSpecies.init mo low tg high src =
        Except.error (PyErr.valueError msg)) ↔
      ¬((∃ m, mo = PyObj.mol m) ∧ (∃ s, tg = PyObj.str s))) := by
  cases mo <;> cases tg <;>
    simp [ErrorCancelingSpecies.init]

end Isodesmic
